import Mathlib

/-!
Verification of the matrix-multiplication utility in `src/main.py`.

The Python program is shallowly embedded below:

* `PyVal` models the dynamically typed values the validator can receive
  (integers, floats, booleans, strings, nested lists, `None`).
* `PyFloat` models the float values the program manipulates: NaN, the two
  signed infinities, negative zero, and finite values carried as exact
  rationals.  The program only multiplies, adds and compares numbers with
  `0`; those operations are modelled with the IEEE-754 sign, NaN and
  infinity rules, with finite arithmetic kept exact (no rounding, and no
  overflow of finite values to infinity, is modelled).
* `validate_matrix`, `ensure_number`, `multiply_matrices`, `print_matrix`
  and `main` translate the functions `_validate_matrix`, `_ensure_number`,
  `multiply_matrices`, `_print_matrix` and `main` of `src/main.py`; Python
  exceptions become the `Except PyErr` monad (`TypeError` / `ValueError`),
  and `raise SystemExit` / process exit are captured by `CliOutcome`.
-/

/-- A Python float as used by the program: NaN, a signed infinity, IEEE
negative zero, or a finite value carried as an exact rational (`fin 0` is
positive zero; `inf true` is `-inf`). -/
inductive PyFloat where
  | nan
  | inf (neg : Bool)
  | negz
  | fin (q : ℚ)
deriving DecidableEq

/-- A Python number (`int` or `float`), the element type of validated
matrices (`Number = Union[int, float]` in `src/main.py`). -/
inductive PyNum where
  | int (n : ℤ)
  | float (f : PyFloat)
deriving DecidableEq

/-- A dynamically typed Python value reaching `_validate_matrix`. -/
inductive PyVal where
  | int (n : ℤ)
  | float (f : PyFloat)
  | bool (b : Bool)
  | str (s : String)
  | list (xs : List PyVal)
  | none

/-- A raised Python exception: `TypeError` (the spec's ContentError class)
or `ValueError` (the spec's ShapeError class), with its message. -/
inductive PyErr where
  | typeError (msg : String)
  | valueError (msg : String)
deriving DecidableEq

/-- The message carried by an exception. -/
def PyErr.message : PyErr → String
  | .typeError msg => msg
  | .valueError msg => msg

/-- Whether an exception is a `ValueError` (ShapeError class). -/
def PyErr.isValueError : PyErr → Bool
  | .typeError _ => false
  | .valueError _ => true

/-- Numeric payload of a float; only consulted on finite values. -/
def PyFloat.val : PyFloat → ℚ
  | .nan => 0
  | .inf _ => 0
  | .negz => 0
  | .fin q => q

/-- NaN test. -/
def PyFloat.isNan : PyFloat → Bool
  | .nan => true
  | _ => false

/-- IEEE sign bit (negative zero and negative finite values). -/
def PyFloat.signBit : PyFloat → Bool
  | .nan => false
  | .inf s => s
  | .negz => true
  | .fin q => decide (q < 0)

/-- Float addition: NaN propagates; opposite infinities give NaN, an
infinity absorbs everything else; `-0.0 + -0.0 = -0.0`; all other sums
take the exact value, a zero result being positive zero (IEEE round-to-
nearest), with finite arithmetic kept exact. -/
def PyFloat.add (x y : PyFloat) : PyFloat :=
  if x.isNan || y.isNan then .nan
  else
    match x, y with
    | .inf s, .inf t => if s != t then .nan else .inf s
    | .inf s, _ => .inf s
    | _, .inf t => .inf t
    | .negz, .negz => .negz
    | _, _ => .fin (x.val + y.val)

/-- Float multiplication: NaN propagates; an infinity times a zero is
NaN, an infinity times anything else keeps the xor of the signs; a zero
finite product takes the IEEE xor of the operand sign bits; nonzero
finite products are exact. -/
def PyFloat.mul (x y : PyFloat) : PyFloat :=
  if x.isNan || y.isNan then .nan
  else
    match x, y with
    | .inf s, .inf t => .inf (s != t)
    | .inf _, .negz => .nan
    | .negz, .inf _ => .nan
    | .inf s, .fin q => if q = 0 then .nan else .inf (s != decide (q < 0))
    | .fin q, .inf t => if q = 0 then .nan else .inf (decide (q < 0) != t)
    | _, _ =>
      if x.val * y.val = 0 then
        (if x.signBit != y.signBit then .negz else .fin 0)
      else .fin (x.val * y.val)

/-- Promotion of a Python `int` to `float` (exact in the modelled range). -/
def PyNum.toFloat : ℤ → PyFloat := fun n => .fin (n : ℚ)

/-- Python `+` on numbers: `int + int` is exact integer addition, any
float operand promotes the other side to float. -/
def PyNum.add : PyNum → PyNum → PyNum
  | .int m, .int n => .int (m + n)
  | .int m, .float g => .float (PyFloat.add (PyNum.toFloat m) g)
  | .float f, .int n => .float (PyFloat.add f (PyNum.toFloat n))
  | .float f, .float g => .float (PyFloat.add f g)

/-- Python `*` on numbers, with the same promotion rule. -/
def PyNum.mul : PyNum → PyNum → PyNum
  | .int m, .int n => .int (m * n)
  | .int m, .float g => .float (PyFloat.mul (PyNum.toFloat m) g)
  | .float f, .int n => .float (PyFloat.mul f (PyNum.toFloat n))
  | .float f, .float g => .float (PyFloat.mul f g)

/-- Python `aik == 0`: true on `0`, `0.0` and `-0.0`, false on NaN and on
every nonzero value. -/
def PyNum.eqZero : PyNum → Bool
  | .int n => n == 0
  | .float .nan => false
  | .float (.inf _) => false
  | .float .negz => true
  | .float (.fin q) => q == 0

/-- `_ensure_number` of `src/main.py`: accept `int` and `float`, reject
`bool` (a subclass of `int` in Python) and everything else. -/
def ensure_number (v : PyVal) (name : String) : Except PyErr PyNum :=
  match v with
  | .int n => .ok (.int n)
  | .float f => .ok (.float f)
  | _ => .error (.typeError (name ++ " must contain only numbers (int or float)"))

/-- One row of `_validate_matrix`'s loop: the row must be a sequence that
is not a string, and each element must pass `_ensure_number`. -/
def validate_row (row : PyVal) (name : String) : Except PyErr (List PyNum) :=
  match row with
  | .list xs => xs.mapM (fun x => ensure_number x name)
  | _ => .error (.typeError (name ++ " must be a sequence of sequences of numbers"))

/-- The row loop of `_validate_matrix`, building the defensive copy. -/
def validate_rows (rows : List PyVal) (name : String) : Except PyErr (List (List PyNum)) :=
  rows.mapM (fun row => validate_row row name)

/-- `_validate_matrix` of `src/main.py`: top level must be a non-string
sequence; every row a non-string sequence of numbers; then at least one
row, no empty row, and all rows of one common length. -/
def validate_matrix (m : PyVal) (name : String) : Except PyErr (List (List PyNum)) :=
  match m with
  | .list rows =>
    match validate_rows rows name with
    | .error e => .error e
    | .ok out =>
      if out.length = 0 then
        .error (.valueError (name ++ " must have at least one row"))
      else if out.any (fun r => r.length == 0) then
        .error (.valueError (name ++ " rows must be non-empty"))
      else if out.all (fun r => r.length == (out.headD []).length) then
        .ok out
      else
        .error (.valueError (name ++ " must be rectangular (all rows same length)"))
  | _ => .error (.typeError (name ++ " must be a sequence of sequences of numbers"))

/-- One step of the `k` loop of `multiply_matrices`: skip the pair when
`a[i][k] == 0`, otherwise add `aik * b_k[j]` into every result cell `j`. -/
def mult_row_step (row : List PyNum) (p : PyNum × List PyNum) : List PyNum :=
  if p.1.eqZero then row
  else List.zipWith (fun r x => PyNum.add r (PyNum.mul p.1 x)) row p.2

/-- The `k`/`j` loops of `multiply_matrices` for one result row `i`:
fold the pairs `(a[i][k], b[k])` over a row of zeros of length `b_cols`. -/
def mult_row (ai : List PyNum) (b : List (List PyNum)) (bCols : ℕ) : List PyNum :=
  (List.zip ai b).foldl mult_row_step (List.replicate bCols (PyNum.int 0))

/-- `multiply_matrices` of `src/main.py`: validate both inputs, check the
inner dimensions, then run the zero-skipping triple loop. -/
def multiply_matrices (left right : PyVal) : Except PyErr (List (List PyNum)) :=
  match validate_matrix left "left" with
  | .error e => .error e
  | .ok a =>
    match validate_matrix right "right" with
    | .error e => .error e
    | .ok b =>
      if (a.headD []).length ≠ b.length then
        .error (.valueError ("Incompatible shapes for multiplication: left is " ++
          toString a.length ++ "x" ++ toString (a.headD []).length ++ ", right is " ++
          toString b.length ++ "x" ++ toString (b.headD []).length))
      else
        .ok (a.map (fun ai => mult_row ai b (b.headD []).length))

/-- One accumulation step of the reference triple loop, with no skip.
Modelled from the spec: the "reference implementation without the skip
optimization" / "unconditional naive triple loop" it compares against. -/
def naive_row_step (row : List PyNum) (p : PyNum × List PyNum) : List PyNum :=
  List.zipWith (fun r x => PyNum.add r (PyNum.mul p.1 x)) row p.2

/-- One result row of the reference triple loop (no zero skip).
Modelled from the spec: reference implementation without the skip. -/
def naive_row (ai : List PyNum) (b : List (List PyNum)) (bCols : ℕ) : List PyNum :=
  (List.zip ai b).foldl naive_row_step (List.replicate bCols (PyNum.int 0))

/-- The reference multiplier: identical validation and shape check, but
the unconditional triple loop.  Modelled from the spec: "a reference
implementation without the skip optimization". -/
def naive_multiply_matrices (left right : PyVal) : Except PyErr (List (List PyNum)) :=
  match validate_matrix left "left" with
  | .error e => .error e
  | .ok a =>
    match validate_matrix right "right" with
    | .error e => .error e
    | .ok b =>
      if (a.headD []).length ≠ b.length then
        .error (.valueError ("Incompatible shapes for multiplication: left is " ++
          toString a.length ++ "x" ++ toString (a.headD []).length ++ ", right is " ++
          toString b.length ++ "x" ++ toString (b.headD []).length))
      else
        .ok (a.map (fun ai => naive_row ai b (b.headD []).length))

/-! ### CLI layer (`_print_matrix`, `_load_matrix_from_json_arg`, `main`) -/

/-- Rendering of one value by `_print_matrix`'s `f"{val:g}"`.
Modelled from the spec: "each value rendered in a compact general numeric
format (trailing zeros and unnecessary decimal points elided, e.g. `7`
rather than `7.0`, but `7.5` kept as-is)"; exact for the integer values
the verified CLI behaviour produces (the `%g` float branch and the
six-significant-digit cutoff of large magnitudes are outside the model). -/
def format_g : PyNum → String
  | .int n => toString n
  | .float .nan => "nan"
  | .float (.inf s) => if s then "-inf" else "inf"
  | .float .negz => "-0"
  | .float (.fin q) =>
    if q.den = 1 then toString q.num
    else
      match (List.range 64).find? (fun k => (q * (10 : ℚ) ^ (k + 1)).den = 1) with
      | some k0 =>
        let k := k0 + 1
        let digits := toString (q * (10 : ℚ) ^ k).num.natAbs
        let padded :=
          if digits.length ≤ k then
            String.mk (List.replicate (k + 1 - digits.length) (Char.ofNat 48)) ++ digits
          else digits
        (if q < 0 then "-" else "") ++
          String.mk (padded.toList.take (padded.length - k)) ++ "." ++
          String.mk (padded.toList.drop (padded.length - k))
      | _ => toString q

/-- `_print_matrix` of `src/main.py`: one line per row, values separated
by single spaces. -/
def print_matrix (m : List (List PyNum)) : List String :=
  m.map (fun row => String.intercalate " " (row.map format_g))

/-- Outcome of running `main`: a normal return (captured stdout lines and
the returned exit code), a `raise SystemExit(msg)`, or an exception that
escaped `main` uncaught. -/
inductive CliOutcome where
  | exit (stdout : List String) (code : ℤ)
  | sysExit (msg : String)
  | uncaught (e : PyErr)
deriving DecidableEq

/-- `_load_matrix_from_json_arg` of `src/main.py`, parameterised by the
standard library's JSON decoder (`json.loads`), which is outside this
repository: decode failure and validation failure both become
`SystemExit` messages. -/
def load_matrix_from_json_arg (decode : String → Except String PyVal)
    (arg name : String) : Except String (List (List PyNum)) :=
  match decode arg with
  | .error exc => .error ("Failed to parse " ++ name ++ " as JSON: " ++ exc)
  | .ok value =>
    match validate_matrix value name with
    | .error e => .error e.message
    | .ok m => .ok m

/-- Re-embedding of a validated matrix as a `PyVal`, as when `main` passes
the lists returned by `_load_matrix_from_json_arg` to `multiply_matrices`. -/
def PyNum.toVal : PyNum → PyVal
  | .int n => .int n
  | .float f => .float f

/-- A validated matrix as the `PyVal` that `main` hands to
`multiply_matrices`. -/
def matToVal (m : List (List PyNum)) : PyVal :=
  .list (m.map (fun row => .list (row.map PyNum.toVal)))

/-- The demo left matrix of `main`. -/
def demo_left : PyVal :=
  .list [.list [.int 1, .int 2, .int 3], .list [.int 4, .int 5, .int 6]]

/-- The demo right matrix of `main`. -/
def demo_right : PyVal :=
  .list [.list [.int 7, .int 8], .list [.int 9, .int 10], .list [.int 11, .int 12]]

/-- `main` of `src/main.py` (named `py_main` here since Lean reserves `main`), parameterised by the JSON decoder.  `argv`
includes the program name, as in Python; zero positional arguments is
`argv.length = 1`.  Uncaught exceptions from `multiply_matrices` are
reported as `CliOutcome.uncaught`. -/
def py_main (decode : String → Except String PyVal) (argv : List String) : CliOutcome :=
  if argv.length = 1 then
    match multiply_matrices demo_left demo_right with
    | .ok c => .exit (print_matrix c) 0
    | .error e => .uncaught e
  else if argv.length = 3 then
    match load_matrix_from_json_arg decode (argv.getD 1 "") "left" with
    | .error msg => .sysExit msg
    | .ok a =>
      match load_matrix_from_json_arg decode (argv.getD 2 "") "right" with
      | .error msg => .sysExit msg
      | .ok b =>
        match multiply_matrices (matToVal a) (matToVal b) with
        | .ok c => .exit (print_matrix c) 0
        | .error e => .uncaught e
  else
    .exit ["Usage:",
           "  python main.py                          # demo",
           "  python main.py \x27<A_json>\x27 \x27<B_json>\x27    # multiply A×B"] 2

/-! ### Specification-side definitions used to state the claims -/

/-- Embedding of an integer matrix as the raw `PyVal` handed to
`multiply_matrices`. -/
def intMatVal (A : List (List ℤ)) : PyVal :=
  .list (A.map (fun row => .list (row.map PyVal.int)))

/-- The entry `(i,j)`-independent column dot product: `sum_k r_k * B_k_j`
over the rows of `B` paired with `r`. -/
def dotColZ (r : List ℤ) (B : List (List ℤ)) (j : ℕ) : ℤ :=
  ((List.zip r B).map (fun p => p.1 * p.2.getD j 0)).sum

/-- The textbook integer matrix product with `p` result columns. -/
def matMulZ (A B : List (List ℤ)) (p : ℕ) : List (List ℤ) :=
  A.map (fun r => (List.range p).map (fun j => dotColZ r B j))

/-- The datum a program number denotes: NaN, a signed infinity, or an
exact finite value (identifying `int n` with float `n.0`, and `0` with
`-0.0`) — the equivalence Python `==` induces on the program's numbers,
except that NaN is identified with itself. -/
inductive PyDatum where
  | nan
  | posInf
  | negInf
  | fin (q : ℚ)
deriving DecidableEq

/-- The datum denoted by a number. -/
def PyNum.datum : PyNum → PyDatum
  | .int n => .fin (n : ℚ)
  | .float .nan => .nan
  | .float (.inf s) => if s then .negInf else .posInf
  | .float .negz => .fin 0
  | .float (.fin q) => .fin q

/-- Pointwise value equivalence of two rows. -/
def rowValEq (r s : List PyNum) : Bool :=
  r.length == s.length &&
    (List.zip r s).all (fun p => decide (p.1.datum = p.2.datum))

/-- Pointwise value equivalence of two matrices. -/
def matValEq (a b : List (List PyNum)) : Bool :=
  a.length == b.length && (List.zip a b).all (fun p => rowValEq p.1 p.2)

/-- Value equivalence of two run outcomes: identical exceptions, or
value-equivalent result matrices. -/
def exceptValEq : Except PyErr (List (List PyNum)) → Except PyErr (List (List PyNum)) → Bool
  | .error e, .error e' => decide (e = e')
  | .ok a, .ok b => matValEq a b
  | _, _ => false

/-- Whether a number is finite (neither NaN nor a signed infinity). -/
def PyNum.isFinite : PyNum → Bool
  | .int _ => true
  | .float (.fin _) => true
  | .float .negz => true
  | _ => false

/-- Every entry of the validated matrix is finite (no NaN, no infinity). -/
def finiteMat (m : List (List PyNum)) : Bool :=
  m.all (fun row => row.all (fun x => x.isFinite))

/-- Whether a value passes the row-shape test of `_validate_matrix`
(`isinstance(row, Sequence)` and not a string). -/
def PyVal.isRow : PyVal → Bool
  | .list _ => true
  | _ => false

/-- The inner double loop of the multiplier specialised to exact integer
arithmetic: fold the pairs `(a[i][k], b[k])`, adding `aik * b[k][j]` into
cell `j`. -/
def foldZ (pairs : List (ℤ × List ℤ)) (acc : List ℤ) : List ℤ :=
  pairs.foldl (fun acc p => List.zipWith (fun r x => r + p.1 * x) acc p.2) acc

/-- Addition on data, following IEEE-754: NaN absorbs, opposite
infinities give NaN, an infinity absorbs finite values. -/
def addDatum : PyDatum → PyDatum → PyDatum
  | .nan, _ => .nan
  | _, .nan => .nan
  | .posInf, .negInf => .nan
  | .negInf, .posInf => .nan
  | .posInf, _ => .posInf
  | _, .posInf => .posInf
  | .negInf, _ => .negInf
  | _, .negInf => .negInf
  | .fin x, .fin y => .fin (x + y)

/-- Multiplication on data, following IEEE-754: NaN absorbs, an infinity
times zero is NaN, an infinity times anything else follows the signs. -/
def mulDatum : PyDatum → PyDatum → PyDatum
  | .nan, _ => .nan
  | _, .nan => .nan
  | .posInf, .posInf => .posInf
  | .posInf, .negInf => .negInf
  | .negInf, .posInf => .negInf
  | .negInf, .negInf => .posInf
  | .posInf, .fin q => if q = 0 then .nan else if q < 0 then .negInf else .posInf
  | .fin q, .posInf => if q = 0 then .nan else if q < 0 then .negInf else .posInf
  | .negInf, .fin q => if q = 0 then .nan else if q < 0 then .posInf else .negInf
  | .fin q, .negInf => if q = 0 then .nan else if q < 0 then .posInf else .negInf
  | .fin x, .fin y => .fin (x * y)

/-! ## Lemmas about validation -/

/-- A failing `mapM` over `Except` fails on some list element. -/
theorem except_mapM_error {α β : Type} (f : α → Except PyErr β) :
    ∀ (l : List α) (e : PyErr), l.mapM f = .error e → ∃ x ∈ l, f x = .error e := by
  intro l
  induction l with
  | nil =>
    intro e h
    rw [List.mapM_nil] at h
    simp [pure, Except.pure] at h
  | cons a t ih =>
    intro e h
    rw [List.mapM_cons] at h
    cases hfa : f a with
    | error e' =>
      rw [hfa] at h
      simp only [Bind.bind, Except.bind] at h
      cases h
      exact ⟨a, by simp, hfa⟩
    | ok b =>
      rw [hfa] at h
      simp only [Bind.bind, Except.bind] at h
      cases hmt : t.mapM f with
      | error e' =>
        rw [hmt] at h
        simp only [Bind.bind, Except.bind] at h
        cases h
        obtain ⟨x, hx, hfx⟩ := ih _ hmt
        exact ⟨x, by simp [hx], hfx⟩
      | ok bs =>
        rw [hmt] at h
        simp [pure, Except.pure] at h

/-- A succeeding `mapM` over `Except` succeeds on every list element. -/
theorem except_mapM_ok {α β : Type} (f : α → Except PyErr β) :
    ∀ (l : List α) (ys : List β), l.mapM f = .ok ys → ∀ x ∈ l, ∃ y, f x = .ok y := by
  intro l
  induction l with
  | nil => intro ys _ x hx; cases hx
  | cons a t ih =>
    intro ys h x hx
    rw [List.mapM_cons] at h
    cases hfa : f a with
    | error e' =>
      rw [hfa] at h
      simp only [Bind.bind, Except.bind] at h
      cases h
    | ok b =>
      rw [hfa] at h
      simp only [Bind.bind, Except.bind] at h
      cases hmt : t.mapM f with
      | error e' =>
        rw [hmt] at h
        simp only [Bind.bind, Except.bind] at h
        cases h
      | ok bs =>
        rw [hmt] at h
        rcases List.mem_cons.mp hx with rfl | hxt
        · exact ⟨b, hfa⟩
        · exact ih bs hmt x hxt

/-- `_ensure_number` failures are `TypeError`s whose message is labelled
by `name`. -/
theorem ensure_number_error (v : PyVal) (name : String) (e : PyErr)
    (h : ensure_number v name = .error e) :
    e = .typeError (name ++ " must contain only numbers (int or float)") := by
  cases v <;> simp [ensure_number] at h <;> exact h.symm

/-- Failures of the row check are `TypeError`s labelled by `name`. -/
theorem validate_row_error (row : PyVal) (name : String) (e : PyErr)
    (h : validate_row row name = .error e) :
    ∃ t, e = .typeError (name ++ t) := by
  cases row with
  | list xs =>
    simp only [validate_row] at h
    obtain ⟨x, _, hx⟩ := except_mapM_error _ xs e h
    exact ⟨" must contain only numbers (int or float)", ensure_number_error x name e hx⟩
  | int n => simp [validate_row] at h; exact ⟨_, h.symm⟩
  | float f => simp [validate_row] at h; exact ⟨_, h.symm⟩
  | bool b => simp [validate_row] at h; exact ⟨_, h.symm⟩
  | str s => simp [validate_row] at h; exact ⟨_, h.symm⟩
  | none => simp [validate_row] at h; exact ⟨_, h.symm⟩

/-- Failures of the whole row loop are `TypeError`s labelled by `name`. -/
theorem validate_rows_error (rows : List PyVal) (name : String) (e : PyErr)
    (h : validate_rows rows name = .error e) :
    ∃ t, e = .typeError (name ++ t) := by
  obtain ⟨row, _, hrow⟩ := except_mapM_error _ rows e h
  exact validate_row_error row name e hrow

/-- Every error `_validate_matrix` raises has a message starting with the
label `name` it was given. -/
theorem validate_matrix_error_label (m : PyVal) (name : String) (e : PyErr)
    (h : validate_matrix m name = .error e) :
    ∃ t, e.message = name ++ t := by
  cases m with
  | list rows =>
    simp only [validate_matrix] at h
    cases hvr : validate_rows rows name with
    | error e' =>
      rw [hvr] at h
      cases h
      obtain ⟨t, ht⟩ := validate_rows_error rows name _ hvr
      exact ⟨t, by rw [ht]; rfl⟩
    | ok out =>
      rw [hvr] at h
      dsimp only at h
      split_ifs at h <;> cases h <;> exact ⟨_, rfl⟩
  | int n => cases h; exact ⟨_, rfl⟩
  | float f => cases h; exact ⟨_, rfl⟩
  | bool b => cases h; exact ⟨_, rfl⟩
  | str s => cases h; exact ⟨_, rfl⟩
  | none => cases h; exact ⟨_, rfl⟩

/-- A matrix containing a boolean-typed element never passes the row
loop: validation raises a `TypeError`. -/
theorem validate_matrix_bool (name : String) (rows xs : List PyVal) (b : Bool)
    (hrow : PyVal.list xs ∈ rows) (hb : PyVal.bool b ∈ xs) :
    ∃ msg, validate_matrix (.list rows) name = .error (.typeError msg) := by
  cases hvr : validate_rows rows name with
  | error e =>
    obtain ⟨t, ht⟩ := validate_rows_error rows name e hvr
    exact ⟨name ++ t, by simp [validate_matrix, hvr, ht]⟩
  | ok out =>
    exfalso
    simp only [validate_rows] at hvr
    obtain ⟨ys, hys⟩ := except_mapM_ok _ rows out hvr (.list xs) hrow
    simp only [validate_row] at hys
    obtain ⟨y, hy⟩ := except_mapM_ok _ xs ys hys (.bool b) hb
    simp [ensure_number] at hy

/-- Shape facts guaranteed by a successful validation: at least one row,
a nonzero column count, and all rows of the common length. -/
theorem validate_matrix_ok_shape (m : PyVal) (name : String) (out : List (List PyNum))
    (h : validate_matrix m name = .ok out) :
    0 < out.length ∧ 0 < (out.headD []).length ∧
      ∀ r ∈ out, r.length = (out.headD []).length := by
  cases m with
  | list rows =>
    simp only [validate_matrix] at h
    cases hvr : validate_rows rows name with
    | error e => rw [hvr] at h; cases h
    | ok mid =>
      rw [hvr] at h
      dsimp only at h
      by_cases h0 : mid.length = 0
      · rw [if_pos h0] at h; cases h
      rw [if_neg h0] at h
      by_cases hemp : (mid.any fun r => r.length == 0) = true
      · rw [if_pos hemp] at h; cases h
      rw [if_neg hemp] at h
      by_cases hall : (mid.all fun r => r.length == (mid.headD []).length) = true
      swap
      · rw [if_neg hall] at h; cases h
      rw [if_pos hall] at h
      · cases h
        have hpos : 0 < out.length := Nat.pos_of_ne_zero h0
        have hrect : ∀ r ∈ out, r.length = (out.headD []).length := by
          intro r hr
          have := List.all_eq_true.mp hall r hr
          exact beq_iff_eq.mp this
        refine ⟨hpos, ?_, hrect⟩
        cases out with
        | nil => cases hpos
        | cons r0 rest =>
          have : ¬ ((r0 :: rest).any fun r => r.length == 0) = true := hemp
          simp only [List.any_eq_true, not_exists, not_and] at this
          have h0' := this r0 (by simp)
          have : r0.length ≠ 0 := by
            intro hz
            exact absurd (by simp [hz]) h0'
          simpa [List.headD] using Nat.pos_of_ne_zero this
  | int n => cases h
  | float f => cases h
  | bool b => cases h
  | str s => cases h
  | none => cases h

/-! ## Integer matrices pass validation unchanged -/

/-- `_ensure_number` accepts each embedded integer unchanged. -/
theorem mapM_ensure_int (name : String) :
    ∀ (r : List ℤ),
      (r.map PyVal.int).mapM (fun x => ensure_number x name) = .ok (r.map PyNum.int) := by
  intro r
  induction r with
  | nil => rfl
  | cons a t ih =>
    rw [List.map_cons, List.mapM_cons, ih]
    simp [ensure_number, Bind.bind, Except.bind, pure, Except.pure]

/-- The row loop accepts an embedded integer matrix unchanged. -/
theorem validate_rows_int (name : String) :
    ∀ (A : List (List ℤ)),
      validate_rows (A.map (fun r => .list (r.map PyVal.int))) name
        = .ok (A.map (fun r => r.map PyNum.int)) := by
  intro A
  induction A with
  | nil => rfl
  | cons r t ih =>
    simp only [validate_rows, List.map_cons, List.mapM_cons] at *
    rw [ih]
    have hrow := mapM_ensure_int name r
    simp only [List.mapM] at hrow
    simp [validate_row, hrow, Bind.bind, Except.bind, pure, Except.pure]

/-- `_validate_matrix` accepts a well-shaped embedded integer matrix and
returns its copy. -/
theorem validate_matrix_int (A : List (List ℤ)) (n : ℕ) (name : String)
    (hA : A ≠ []) (hn : 0 < n) (hrows : ∀ r ∈ A, r.length = n) :
    validate_matrix (intMatVal A) name = .ok (A.map (fun r => r.map PyNum.int)) := by
  simp only [validate_matrix, intMatVal, validate_rows_int]
  rw [if_neg, if_neg, if_pos]
  · rw [List.all_eq_true]
    intro r hr
    obtain ⟨r0, hr0, rfl⟩ := List.mem_map.mp hr
    cases A with
    | nil => exact absurd rfl hA
    | cons a0 A' =>
      simp only [List.map_cons, List.headD_cons]
      have h1 : r0.length = n := hrows r0 hr0
      have h2 : a0.length = n := hrows a0 (by simp)
      simp [h1, h2]
  · rw [List.any_eq_true]
    rintro ⟨r, hr, hr0⟩
    obtain ⟨r0, hr0', rfl⟩ := List.mem_map.mp hr
    have := hrows r0 hr0'
    simp only [List.length_map] at hr0
    rw [this] at hr0
    exact absurd (beq_iff_eq.mp hr0) (Nat.pos_iff_ne_zero.mp hn)
  · simp only [List.length_map]
    intro hlen
    exact hA (List.length_eq_zero.mp hlen)

/-! ## The triple loop on integer matrices -/

/-- Unfolding: the integer fold on the empty pair list. -/
theorem foldZ_nil (acc : List ℤ) : foldZ [] acc = acc := rfl

/-- Unfolding: one step of the integer fold. -/
theorem foldZ_cons (p : ℤ × List ℤ) (t : List (ℤ × List ℤ)) (acc : List ℤ) :
    foldZ (p :: t) acc = foldZ t (List.zipWith (fun r x => r + p.1 * x) acc p.2) := rfl

/-- Adding `0 * x` cellwise leaves an integer row unchanged. -/
theorem zipWith_zero_add (acc : List ℤ) :
    ∀ (bs : List ℤ), acc.length ≤ bs.length →
      List.zipWith (fun r x => r + 0 * x) acc bs = acc := by
  induction acc with
  | nil => intro bs _; simp
  | cons a t ih =>
    intro bs h
    cases bs with
    | nil => simp at h
    | cons b bs' =>
      rw [List.zipWith_cons_cons, ih bs' (Nat.le_of_succ_le_succ h)]
      norm_num

/-- The zero-skipping fold over embedded integers computes the plain
integer fold: skipping a zero left entry never changes an integer row. -/
theorem fold_int (pairs : List (ℤ × List ℤ)) :
    ∀ (acc : List ℤ), (∀ p ∈ pairs, acc.length ≤ p.2.length) →
      (pairs.map (fun p => (PyNum.int p.1, p.2.map PyNum.int))).foldl
          mult_row_step (acc.map PyNum.int)
        = (foldZ pairs acc).map PyNum.int := by
  induction pairs with
  | nil => intro acc _; rfl
  | cons p t ih =>
    intro acc hlen
    obtain ⟨x, bs⟩ := p
    rw [List.map_cons, List.foldl_cons, foldZ_cons]
    have hacc : acc.length ≤ bs.length := hlen (x, bs) (by simp)
    by_cases hx : x = 0
    · subst hx
      have hstep : mult_row_step (acc.map PyNum.int) (PyNum.int 0, bs.map PyNum.int)
          = acc.map PyNum.int := by
        simp [mult_row_step, PyNum.eqZero]
      rw [hstep, zipWith_zero_add acc bs hacc]
      exact ih acc (fun q hq => hlen q (by simp [hq]))
    · have hstep : mult_row_step (acc.map PyNum.int) (PyNum.int x, bs.map PyNum.int)
          = (List.zipWith (fun r y => r + x * y) acc bs).map PyNum.int := by
        simp only [mult_row_step, PyNum.eqZero]
        rw [if_neg (by simpa using hx)]
        rw [List.zipWith_map, List.map_zipWith]
        congr 1
      rw [hstep]
      have hlen' : (List.zipWith (fun r y => r + x * y) acc bs).length = acc.length := by
        rw [List.length_zipWith]
        exact min_eq_left hacc
      rw [ih _ (fun q hq => by rw [hlen']; exact hlen q (by simp [hq]))]

/-- The integer fold preserves the accumulator length. -/
theorem foldZ_length (pairs : List (ℤ × List ℤ)) :
    ∀ (acc : List ℤ), (∀ p ∈ pairs, acc.length ≤ p.2.length) →
      (foldZ pairs acc).length = acc.length := by
  induction pairs with
  | nil => intro acc _; rfl
  | cons p t ih =>
    intro acc hlen
    rw [foldZ_cons]
    have hacc : acc.length ≤ p.2.length := hlen p (by simp)
    have hlen' : (List.zipWith (fun r x => r + p.1 * x) acc p.2).length = acc.length := by
      rw [List.length_zipWith]
      exact min_eq_left hacc
    rw [ih _ (fun q hq => by rw [hlen']; exact hlen q (by simp [hq])), hlen']

/-- Cell `j` of one integer accumulation step. -/
theorem getD_zipWith_int (acc bs : List ℤ) (x : ℤ) (j : ℕ)
    (hj : j < acc.length) (hb : acc.length ≤ bs.length) :
    (List.zipWith (fun r y => r + x * y) acc bs).getD j 0
      = acc.getD j 0 + x * bs.getD j 0 := by
  have hz : j < (List.zipWith (fun r y => r + x * y) acc bs).length := by
    rw [List.length_zipWith]
    exact lt_min hj (lt_of_lt_of_le hj hb)
  rw [List.getD_eq_getElem _ _ hz, List.getElem_zipWith,
    List.getD_eq_getElem _ _ hj, List.getD_eq_getElem _ _ (lt_of_lt_of_le hj hb)]

/-- Cell `j` after the whole integer fold: the initial cell plus the sum
of the contributions of every pair. -/
theorem foldZ_getD (pairs : List (ℤ × List ℤ)) :
    ∀ (acc : List ℤ) (j : ℕ), j < acc.length →
      (∀ p ∈ pairs, acc.length ≤ p.2.length) →
      (foldZ pairs acc).getD j 0
        = acc.getD j 0 + ((pairs.map (fun p => p.1 * p.2.getD j 0)).sum) := by
  induction pairs with
  | nil => intro acc j _ _; simp [foldZ_nil]
  | cons p t ih =>
    intro acc j hj hlen
    rw [foldZ_cons]
    have hacc : acc.length ≤ p.2.length := hlen p (by simp)
    have hlen' : (List.zipWith (fun r x => r + p.1 * x) acc p.2).length = acc.length := by
      rw [List.length_zipWith]
      exact min_eq_left hacc
    rw [ih _ j (by rw [hlen']; exact hj) (fun q hq => by rw [hlen']; exact hlen q (by simp [hq]))]
    rw [getD_zipWith_int acc p.2 p.1 j hj hacc]
    simp only [List.map_cons, List.sum_cons]
    ring

/-- The zipped pair sum is the textbook sum over the inner index. -/
theorem zip_sum_eq_range_sum (j : ℕ) :
    ∀ (n : ℕ) (r : List ℤ) (B : List (List ℤ)), r.length = n → B.length = n →
      ((List.zip r B).map (fun p => p.1 * p.2.getD j 0)).sum
        = ∑ k ∈ Finset.range n, r.getD k 0 * ((B.getD k []).getD j 0) := by
  intro n
  induction n with
  | zero =>
    intro r B hr hB
    rw [List.length_eq_zero.mp hr, List.length_eq_zero.mp hB]
    simp
  | succ n ih =>
    intro r B hr hB
    cases r with
    | nil => simp at hr
    | cons a r' =>
      cases B with
      | nil => simp at hB
      | cons b B' =>
        simp only [List.zip_cons_cons, List.map_cons, List.sum_cons]
        rw [Finset.sum_range_succ']
        simp only [List.getD_cons_succ, List.getD_cons_zero]
        rw [ih r' B' (by simpa using hr) (by simpa using hB)]
        ring

/-- One row of the zero-skipping loop on an embedded integer matrix is
the embedded row of textbook dot products. -/
theorem mult_row_int (r : List ℤ) (B : List (List ℤ)) (p : ℕ)
    (hB : ∀ row ∈ B, row.length = p) :
    mult_row (r.map PyNum.int) (B.map (fun row => row.map PyNum.int)) p
      = ((List.range p).map (fun j => dotColZ r B j)).map PyNum.int := by
  unfold mult_row
  rw [List.zip_map]
  have hrep : List.replicate p (PyNum.int 0) = (List.replicate p (0 : ℤ)).map PyNum.int := by
    rw [List.map_replicate]
  have hmem : ∀ q ∈ List.zip r B, (List.replicate p (0 : ℤ)).length ≤ q.2.length := by
    intro q hq
    rw [List.length_replicate, hB q.2 (List.of_mem_zip hq).2]
  have hmap : List.map (Prod.map PyNum.int (List.map PyNum.int)) (List.zip r B)
      = (List.zip r B).map (fun q => (PyNum.int q.1, q.2.map PyNum.int)) := rfl
  rw [hrep, hmap, fold_int (List.zip r B) (List.replicate p 0) hmem]
  congr 1
  apply List.ext_getElem
  · rw [foldZ_length _ _ hmem, List.length_replicate, List.length_map, List.length_range]
  · intro i h1 h2
    have hip : i < p := by
      rw [foldZ_length _ _ hmem, List.length_replicate] at h1
      exact h1
    rw [← List.getD_eq_getElem _ (0 : ℤ) h1, ← List.getD_eq_getElem _ (0 : ℤ) h2]
    rw [foldZ_getD _ _ i (by rw [List.length_replicate]; exact hip) hmem]
    have hgr : ((List.range p).map (fun j => dotColZ r B j)).getD i 0 = dotColZ r B i := by
      have hi : i < ((List.range p).map (fun j => dotColZ r B j)).length := by
        rw [List.length_map, List.length_range]; exact hip
      rw [List.getD_eq_getElem _ _ hi, List.getElem_map, List.getElem_range]
    rw [hgr]
    have hz : (List.replicate p (0 : ℤ)).getD i 0 = 0 := by
      rw [List.getD_eq_getElem _ _ (by rw [List.length_replicate]; exact hip),
        List.getElem_replicate]
    rw [hz, dotColZ]
    ring

/-- `multiply_matrices` on well-shaped embedded integer matrices returns
the embedded textbook integer product. -/
theorem multiply_matrices_int (A B : List (List ℤ)) (n p : ℕ)
    (hA : A ≠ []) (hAr : ∀ r ∈ A, r.length = n) (hn : 0 < n)
    (hBn : B.length = n) (hBr : ∀ r ∈ B, r.length = p) (hp : 0 < p) :
    multiply_matrices (intMatVal A) (intMatVal B)
      = .ok ((matMulZ A B p).map (fun r => r.map PyNum.int)) := by
  have hB : B ≠ [] := by
    intro h
    rw [h] at hBn
    simp at hBn
    omega
  simp only [multiply_matrices]
  rw [validate_matrix_int A n "left" hA hn hAr,
      validate_matrix_int B p "right" hB hp hBr]
  dsimp only
  have hhead : ((A.map (fun r => r.map PyNum.int)).headD []).length = n := by
    cases A with
    | nil => exact absurd rfl hA
    | cons a0 A' =>
      simp only [List.map_cons, List.headD_cons, List.length_map]
      exact hAr a0 (by simp)
  have hblen : (B.map (fun r => r.map PyNum.int)).length = n := by simp [hBn]
  rw [if_neg (by rw [hhead, hblen]; simp)]
  have hbcols : ((B.map (fun r => r.map PyNum.int)).headD []).length = p := by
    cases B with
    | nil => exact absurd rfl hB
    | cons b0 B' =>
      simp only [List.map_cons, List.headD_cons, List.length_map]
      exact hBr b0 (by simp)
  rw [hbcols]
  congr 1
  rw [matMulZ, List.map_map, List.map_map]
  apply List.map_congr_left
  intro r hr
  simp only [Function.comp_apply]
  exact mult_row_int r B p hBr

/-! ## Value equivalence: the zero skip against the naive loop -/

/-- The numeric datum of a float addition follows `addDatum`. -/
theorem float_add_datum (f g : PyFloat) :
    (PyNum.float (PyFloat.add f g)).datum
      = addDatum (PyNum.float f).datum (PyNum.float g).datum := by
  rcases f with _ | s | _ | q <;> rcases g with _ | t | _ | q' <;>
    first
      | rfl
      | (cases s <;> cases t <;> rfl)
      | (cases s <;> rfl)
      | (cases t <;> rfl)
      | simp [PyFloat.add, PyNum.datum, addDatum, PyFloat.val, PyFloat.isNan]

/-- The numeric datum of a Python addition is the `addDatum` of the
data: NaN absorbs, infinities follow the IEEE rules. -/
theorem datum_add (a b : PyNum) : (PyNum.add a b).datum = addDatum a.datum b.datum := by
  rcases a with m | f
  · rcases b with n | g
    · simp only [PyNum.add, PyNum.datum, addDatum]
      push_cast
      rfl
    · have h := float_add_datum (PyNum.toFloat m) g
      simp only [PyNum.add]
      rw [h]
      simp [PyNum.toFloat, PyNum.datum]
  · rcases b with n | g
    · have h := float_add_datum f (PyNum.toFloat n)
      simp only [PyNum.add]
      rw [h]
      simp [PyNum.toFloat, PyNum.datum]
    · exact float_add_datum f g

/-- The numeric datum of a float multiplication follows `mulDatum`. -/
theorem float_mul_datum (f g : PyFloat) :
    (PyNum.float (PyFloat.mul f g)).datum
      = mulDatum (PyNum.float f).datum (PyNum.float g).datum := by
  rcases f with _ | s | _ | q <;> rcases g with _ | t | _ | q' <;>
    first
      | rfl
      | (cases s <;> cases t <;> rfl)
      | (cases s <;> rfl)
      | (cases t <;> rfl)
      | (cases s <;>
          simp only [PyNum.datum, PyFloat.mul, PyFloat.isNan, PyFloat.val, mulDatum,
            Bool.or_self, Bool.or_true, Bool.true_or, Bool.or_false, Bool.false_or,
            if_true, if_false, ite_true, ite_false] <;>
          split_ifs with h1 h2 <;> simp_all [mulDatum, PyNum.datum])
      | (cases t <;>
          simp only [PyNum.datum, PyFloat.mul, PyFloat.isNan, PyFloat.val, mulDatum,
            Bool.or_self, Bool.or_true, Bool.true_or, Bool.or_false, Bool.false_or,
            if_true, if_false, ite_true, ite_false] <;>
          split_ifs with h1 h2 <;> simp_all [mulDatum, PyNum.datum])
      | (simp only [PyNum.datum, PyFloat.mul, PyFloat.isNan, PyFloat.val, mulDatum,
            Bool.or_self, Bool.or_true, Bool.true_or, Bool.or_false, Bool.false_or,
            if_true, if_false, ite_true, ite_false] <;>
          split_ifs with h1 h2 <;> simp_all [mulDatum, PyNum.datum])

/-- The numeric datum of a Python multiplication is the `mulDatum` of
the data: NaN absorbs, `0 * inf` is NaN. -/
theorem datum_mul (a b : PyNum) : (PyNum.mul a b).datum = mulDatum a.datum b.datum := by
  rcases a with m | f
  · rcases b with n | g
    · simp only [PyNum.mul, PyNum.datum, mulDatum]
      push_cast
      rfl
    · have h := float_mul_datum (PyNum.toFloat m) g
      simp only [PyNum.mul]
      rw [h]
      simp [PyNum.toFloat, PyNum.datum]
  · rcases b with n | g
    · have h := float_mul_datum f (PyNum.toFloat n)
      simp only [PyNum.mul]
      rw [h]
      simp [PyNum.toFloat, PyNum.datum]
    · exact float_mul_datum f g

/-- Python's `== 0` test holds exactly on the numbers whose datum is the
finite value `0` (so never on NaN or an infinity). -/
theorem eqZero_datum (a : PyNum) : a.eqZero = true ↔ a.datum = .fin 0 := by
  rcases a with m | f
  · simp [PyNum.eqZero, PyNum.datum]
  · rcases f with _ | t | _ | q
    · simp [PyNum.eqZero, PyNum.datum]
    · cases t <;> simp [PyNum.eqZero, PyNum.datum]
    · simp [PyNum.eqZero, PyNum.datum]
    · simp [PyNum.eqZero, PyNum.datum]

/-- A number is finite exactly when its datum is a finite value. -/
theorem isFinite_datum (a : PyNum) :
    a.isFinite = true ↔ ∃ v, a.datum = PyDatum.fin v := by
  rcases a with m | f
  · simp [PyNum.isFinite, PyNum.datum]
  · rcases f with _ | t | _ | q
    · simp [PyNum.isFinite, PyNum.datum]
    · cases t <;> simp [PyNum.isFinite, PyNum.datum]
    · simp [PyNum.isFinite, PyNum.datum]
    · simp [PyNum.isFinite, PyNum.datum]

/-- Adding a datum `fin 0` term leaves every datum unchanged (NaN stays
NaN, infinities stay themselves, finite values gain `0`). -/
theorem addDatum_zero (d : PyDatum) (v : ℚ) :
    addDatum d (mulDatum (PyDatum.fin 0) (PyDatum.fin v)) = d := by
  cases d <;> simp [addDatum, mulDatum]

/-- Accumulating the same non-skipped pair into value-equivalent rows
keeps them value-equivalent. -/
theorem forall2_zipWith_step (t : PyNum) (r s : List PyNum)
    (h : List.Forall₂ (fun u v => u.datum = v.datum) r s) :
    ∀ (bs : List PyNum),
      List.Forall₂ (fun u v => u.datum = v.datum)
        (List.zipWith (fun u x => PyNum.add u (PyNum.mul t x)) r bs)
        (List.zipWith (fun u x => PyNum.add u (PyNum.mul t x)) s bs) := by
  induction h with
  | nil => intro bs; simp
  | @cons a c r' s' hac htail ih =>
    intro bs
    cases bs with
    | nil => simp
    | cons b bs' =>
      simp only [List.zipWith_cons_cons]
      exact List.Forall₂.cons (by rw [datum_add, datum_add, hac]) (ih bs')

/-- Accumulating a skipped (zero-valued) pair into a value-equivalent row
changes no cell value, provided the added row is finite (no NaN, no
infinity, so each skipped product denotes exactly `0`). -/
theorem forall2_skip_step (z : PyNum) (hz : z.eqZero = true) (r s : List PyNum)
    (h : List.Forall₂ (fun u v => u.datum = v.datum) r s) :
    ∀ (bs : List PyNum), (∀ x ∈ bs, x.isFinite = true) → s.length ≤ bs.length →
      List.Forall₂ (fun u v => u.datum = v.datum) r
        (List.zipWith (fun u x => PyNum.add u (PyNum.mul z x)) s bs) := by
  induction h with
  | nil => intro bs _ _; simp
  | @cons a c r' s' hac htail ih =>
    intro bs hfin hlen
    cases bs with
    | nil => simp at hlen
    | cons b bs' =>
      simp only [List.zipWith_cons_cons]
      refine List.Forall₂.cons ?_ (ih bs' (fun x hx => hfin x (by simp [hx]))
        (Nat.le_of_succ_le_succ hlen))
      obtain ⟨v, hv⟩ := (isFinite_datum b).mp (hfin b (by simp))
      rw [datum_add, datum_mul, (eqZero_datum z).mp hz, hv, hac, addDatum_zero]

/-- Folding the same pair list with and without the zero skip, from
value-equivalent start rows, yields value-equivalent rows whenever the
right-hand rows are finite. -/
theorem fold_valEq (bCols : ℕ) :
    ∀ (pairs : List (PyNum × List PyNum)) (r s : List PyNum),
      r.length = bCols → s.length = bCols →
      List.Forall₂ (fun u v => u.datum = v.datum) r s →
      (∀ q ∈ pairs, q.2.length = bCols ∧ ∀ x ∈ q.2, x.isFinite = true) →
      List.Forall₂ (fun u v => u.datum = v.datum)
        (pairs.foldl mult_row_step r) (pairs.foldl naive_row_step s) := by
  intro pairs
  induction pairs with
  | nil => intro r s _ _ h _; exact h
  | cons q t ih =>
    intro r s hr hs h hq
    obtain ⟨hqlen, hqfin⟩ := hq q (by simp)
    rw [List.foldl_cons, List.foldl_cons]
    by_cases hz : q.1.eqZero = true
    · rw [mult_row_step, if_pos hz]
      rw [naive_row_step]
      have hstep := forall2_skip_step q.1 hz r s h q.2 hqfin (by rw [hs, hqlen])
      have hslen : (List.zipWith (fun u x => PyNum.add u (PyNum.mul q.1 x)) s q.2).length
          = bCols := by
        rw [List.length_zipWith, hs, hqlen, min_self]
      exact ih r _ hr hslen hstep (fun q' hq' => hq q' (by simp [hq']))
    · rw [mult_row_step, if_neg hz, naive_row_step]
      have hstep := forall2_zipWith_step q.1 r s h q.2
      have hrlen : (List.zipWith (fun u x => PyNum.add u (PyNum.mul q.1 x)) r q.2).length
          = bCols := by
        rw [List.length_zipWith, hr, hqlen, min_self]
      have hslen : (List.zipWith (fun u x => PyNum.add u (PyNum.mul q.1 x)) s q.2).length
          = bCols := by
        rw [List.length_zipWith, hs, hqlen, min_self]
      exact ih _ _ hrlen hslen hstep (fun q' hq' => hq q' (by simp [hq']))

/-- Value-equivalence as a computation: `rowValEq` holds on pointwise
value-equivalent rows. -/
theorem rowValEq_of_forall2 (r s : List PyNum)
    (h : List.Forall₂ (fun u v => u.datum = v.datum) r s) : rowValEq r s = true := by
  rw [rowValEq, Bool.and_eq_true]
  refine ⟨by simp [List.Forall₂.length_eq h], ?_⟩
  rw [List.all_eq_true]
  intro p hp
  induction h with
  | nil => cases hp
  | @cons a c r' s' hac htail ih =>
    rcases List.mem_cons.mp (by simpa using hp) with hfirst | hrest
    · subst hfirst
      simpa using hac
    · exact ih (by simpa using hrest)

/-- With only finite entries in the right matrix (no NaN, no infinity),
the zero-skipping multiplier and the naive reference produce value-equal
outcomes. -/
theorem multiply_valEq_naive (L R : PyVal)
    (hfin : ∀ b, validate_matrix R "right" = .ok b → finiteMat b = true) :
    exceptValEq (multiply_matrices L R) (naive_multiply_matrices L R) = true := by
  rw [multiply_matrices, naive_multiply_matrices]
  cases hvl : validate_matrix L "left" with
  | error e => simp [exceptValEq]
  | ok a =>
    cases hvr : validate_matrix R "right" with
    | error e => simp [exceptValEq]
    | ok b =>
      obtain ⟨hbpos, hbc, hbrect⟩ := validate_matrix_ok_shape R "right" b hvr
      have hnb' : ∀ row ∈ b, ∀ x ∈ row, x.isFinite = true := by
        intro row hrow x hx
        have h1 := List.all_eq_true.mp (hfin b hvr) row hrow
        exact List.all_eq_true.mp h1 x hx
      dsimp only
      by_cases hc : (a.headD []).length ≠ b.length
      · rw [if_pos hc, if_pos hc]
        simp [exceptValEq]
      · rw [if_neg hc, if_neg hc]
        show matValEq _ _ = true
        rw [matValEq, Bool.and_eq_true]
        refine ⟨by simp, ?_⟩
        rw [List.zip_map', List.all_eq_true]
        intro q hq
        obtain ⟨ai, hai, rfl⟩ := List.mem_map.mp hq
        dsimp only
        apply rowValEq_of_forall2
        rw [mult_row, naive_row]
        apply fold_valEq ((b.headD []).length)
        · exact List.length_replicate _ _
        · exact List.length_replicate _ _
        · exact List.forall₂_same.mpr (fun x _ => rfl)
        · intro q' hq'
          have hmem := (List.of_mem_zip hq').2
          exact ⟨hbrect q'.2 hmem, hnb' q'.2 hmem⟩

/-- The zero-skipping fold never inspects a row of `b` whose matching
left entry compares equal to `0`: replacing that row changes nothing. -/
theorem fold_set_skip :
    ∀ (k0 : ℕ) (ai : List PyNum) (b : List (List PyNum)) (r' init : List PyNum),
      (ai.getD k0 (PyNum.int 0)).eqZero = true →
      (List.zip ai (b.set k0 r')).foldl mult_row_step init
        = (List.zip ai b).foldl mult_row_step init := by
  intro k0
  induction k0 with
  | zero =>
    intro ai b r' init hz
    cases ai with
    | nil => simp
    | cons x ai' =>
      cases b with
      | nil => simp
      | cons y b' =>
        rw [List.set_cons_zero, List.zip_cons_cons, List.zip_cons_cons,
          List.foldl_cons, List.foldl_cons]
        have hx : x.eqZero = true := by simpa using hz
        rw [mult_row_step, mult_row_step]
        dsimp only
        rw [if_pos hx, if_pos hx]
  | succ k ih =>
    intro ai b r' init hz
    cases ai with
    | nil => simp
    | cons x ai' =>
      cases b with
      | nil => simp
      | cons y b' =>
        rw [List.set_cons_succ, List.zip_cons_cons, List.zip_cons_cons,
          List.foldl_cons, List.foldl_cons]
        exact ih ai' b' r' _ (by simpa using hz)

/-! ## The claims -/

/-- C1: for every pair of well-formed rectangular integer matrices A of
shape m×n and B of shape n×p, `multiply_matrices` returns a matrix of
shape m×p whose entry at (i, j) equals the standard mathematical matrix
product, i.e. the sum over k of A[i][k] * B[k][j]. -/
theorem claim_C1_integer_product_correct
    (A B : List (List ℤ)) (m n p : ℕ)
    (hAm : A.length = m) (hm : 0 < m)
    (hAr : ∀ r ∈ A, r.length = n) (hn : 0 < n)
    (hBn : B.length = n) (hBr : ∀ r ∈ B, r.length = p) (hp : 0 < p) :
    ∃ C, multiply_matrices (intMatVal A) (intMatVal B) = .ok C ∧
      C.length = m ∧ (∀ r ∈ C, r.length = p) ∧
      ∀ i j, i < m → j < p →
        (C.getD i []).getD j (PyNum.int 0)
          = PyNum.int (∑ k ∈ Finset.range n,
              (A.getD i []).getD k 0 * (B.getD k []).getD j 0) := by
  have hA : A ≠ [] := by
    intro h
    rw [h] at hAm
    simp at hAm
    omega
  refine ⟨_, multiply_matrices_int A B n p hA hAr hn hBn hBr hp, ?_, ?_, ?_⟩
  · simp [matMulZ, hAm]
  · intro r hr
    obtain ⟨r0, hr0, rfl⟩ := List.mem_map.mp hr
    obtain ⟨r1, _, rfl⟩ := List.mem_map.mp hr0
    simp
  · intro i j hi hj
    have hiA : i < A.length := by rw [hAm]; exact hi
    have hiC : i < ((matMulZ A B p).map (fun r => r.map PyNum.int)).length := by
      simp [matMulZ, hAm]
      exact hi
    rw [List.getD_eq_getElem _ _ hiC, List.getElem_map]
    have hiM : i < (matMulZ A B p).length := by
      simp [matMulZ, hAm]
      exact hi
    have hrowi : (matMulZ A B p)[i]
        = (List.range p).map (fun j => dotColZ (A[i]) B j) := by
      simp [matMulZ]
    have hjlen : j < ((matMulZ A B p)[i]).length := by
      rw [hrowi]
      simp [hj]
    have hjmap : j < (((matMulZ A B p)[i]).map PyNum.int).length := by
      rw [List.length_map]
      exact hjlen
    rw [List.getD_eq_getElem _ _ hjmap, List.getElem_map]
    congr 1
    have hgoal : ((matMulZ A B p)[i])[j] = dotColZ (A[i]) B j := by
      simp only [matMulZ, List.getElem_map] at hjlen ⊢
      rw [List.getElem_range]
    rw [hgoal]
    have hrlen : (A[i]).length = n := hAr _ (List.getElem_mem hiA)
    have hsum := zip_sum_eq_range_sum j n (A[i]) B hrlen hBn
    rw [dotColZ, hsum, List.getD_eq_getElem A [] hiA]

/-- Witness for C1: the 2×2 integer example A=[[1,2],[3,4]],
B=[[5,6],[7,8]], whose product is [[19,22],[43,50]]. -/
theorem claim_C1_witness :
    ∃ C, multiply_matrices (intMatVal [[1, 2], [3, 4]]) (intMatVal [[5, 6], [7, 8]]) = .ok C ∧
      C.length = 2 ∧ (∀ r ∈ C, r.length = 2) ∧
      ∀ i j, i < 2 → j < 2 →
        (C.getD i []).getD j (PyNum.int 0)
          = PyNum.int (∑ k ∈ Finset.range 2,
              (([[1, 2], [3, 4]] : List (List ℤ)).getD i []).getD k 0 *
                (([[5, 6], [7, 8]] : List (List ℤ)).getD k []).getD j 0) :=
  claim_C1_integer_product_correct [[1, 2], [3, 4]] [[5, 6], [7, 8]] 2 2 2
    (by decide) (by decide) (by decide) (by decide) (by decide) (by decide) (by decide)

/-- C10: on all-integer inputs `multiply_matrices` performs exact integer
arithmetic throughout: the result is exactly the embedded textbook
integer product `matMulZ` (cells start at the integer 0 and are only
incremented by integer products, so every cell is an exact integer). -/
theorem claim_C10_exact_integer_arithmetic
    (A B : List (List ℤ)) (n p : ℕ)
    (hA : A ≠ []) (hAr : ∀ r ∈ A, r.length = n) (hn : 0 < n)
    (hBn : B.length = n) (hBr : ∀ r ∈ B, r.length = p) (hp : 0 < p) :
    multiply_matrices (intMatVal A) (intMatVal B)
      = .ok ((matMulZ A B p).map (fun r => r.map PyNum.int)) :=
  multiply_matrices_int A B n p hA hAr hn hBn hBr hp

/-- Witness for C10: a product of large integers stays exact. -/
theorem claim_C10_witness :
    multiply_matrices (intMatVal [[1000000007, 2], [3, 4]]) (intMatVal [[5, 6], [7, 1000000009]])
      = .ok ((matMulZ [[1000000007, 2], [3, 4]] [[5, 6], [7, 1000000009]] 2).map
          (fun r => r.map PyNum.int)) :=
  claim_C10_exact_integer_arithmetic [[1000000007, 2], [3, 4]] [[5, 6], [7, 1000000009]] 2 2
    (by decide) (by decide) (by decide) (by decide) (by decide) (by decide)

/-- C3: when two individually valid matrices have mismatched inner
dimensions, `multiply_matrices` fails with the shape `ValueError` whose
message states both shapes. -/
theorem claim_C3_shape_mismatch_error (L R : PyVal) (a b : List (List PyNum))
    (hL : validate_matrix L "left" = .ok a) (hR : validate_matrix R "right" = .ok b)
    (hmis : (a.headD []).length ≠ b.length) :
    multiply_matrices L R = .error (.valueError
      ("Incompatible shapes for multiplication: left is " ++ toString a.length ++ "x" ++
        toString (a.headD []).length ++ ", right is " ++ toString b.length ++ "x" ++
        toString (b.headD []).length)) := by
  rw [multiply_matrices, hL, hR]
  dsimp only
  rw [if_pos hmis]

/-- Witness for C3: a 2×3 left and 2×2 right matrix produce the error
message naming "2x3" and "2x2". -/
theorem claim_C3_witness :
    multiply_matrices
        (.list [.list [.int 1, .int 2, .int 3], .list [.int 4, .int 5, .int 6]])
        (.list [.list [.int 1, .int 2], .list [.int 3, .int 4]])
      = .error (.valueError
          "Incompatible shapes for multiplication: left is 2x3, right is 2x2") := by
  rw [claim_C3_shape_mismatch_error
    (.list [.list [.int 1, .int 2, .int 3], .list [.int 4, .int 5, .int 6]])
    (.list [.list [.int 1, .int 2], .list [.int 3, .int 4]])
    [[PyNum.int 1, PyNum.int 2, PyNum.int 3], [PyNum.int 4, PyNum.int 5, PyNum.int 6]]
    [[PyNum.int 1, PyNum.int 2], [PyNum.int 3, PyNum.int 4]]
    rfl rfl (by decide)]
  rfl

/-- C4: a matrix containing a boolean-typed element is rejected by
validation (and hence by `multiply_matrices`) with a `TypeError`
(ContentError class), never accepted as 0 or 1. -/
theorem claim_C4_bool_rejected (name : String) (rows xs : List PyVal) (b : Bool) (R : PyVal)
    (hrow : PyVal.list xs ∈ rows) (hb : PyVal.bool b ∈ xs) :
    (∃ msg, validate_matrix (.list rows) name = .error (.typeError msg)) ∧
    (∃ msg, multiply_matrices (.list rows) R = .error (.typeError msg)) := by
  obtain ⟨msg, hmsg⟩ := validate_matrix_bool name rows xs b hrow hb
  obtain ⟨msg', hmsg'⟩ := validate_matrix_bool "left" rows xs b hrow hb
  exact ⟨⟨msg, hmsg⟩, ⟨msg', by rw [multiply_matrices, hmsg']⟩⟩

/-- Witness for C4: the matrix [[True]] is rejected with a `TypeError`
both by validation and by multiplication. -/
theorem claim_C4_witness :
    (∃ msg, validate_matrix (.list [.list [.bool true]]) "right"
        = .error (.typeError msg)) ∧
    (∃ msg, multiply_matrices (.list [.list [.bool true]]) (.list [.list [.int 1]])
        = .error (.typeError msg)) :=
  claim_C4_bool_rejected "right" [.list [.bool true]] [.bool true] true
    (.list [.list [.int 1]]) (by simp) (by simp)

/-- C5: an empty top-level sequence (zero rows) is rejected with the
shape `ValueError` "must have at least one row", labelled by `name`. -/
theorem claim_C5_empty_fails (name : String) :
    validate_matrix (.list []) name
      = .error (.valueError (name ++ " must have at least one row")) := rfl

/-- C6 counterexample: a top-level sequence whose element is a number
rather than a row is rejected with a `TypeError` (the ContentError
class), not the ShapeError class (`ValueError`) the claim asserts. -/
theorem claim_C6_counterexample :
    validate_matrix (.list [.int 1]) "left"
        = .error (.typeError "left must be a sequence of sequences of numbers") ∧
    (validate_matrix (.list [.int 1]) "left").toOption = Option.none ∧
    PyErr.isValueError (.typeError "left must be a sequence of sequences of numbers")
      = false :=
  ⟨rfl, rfl, rfl⟩

/-- C6 (amended): a top-level sequence containing an element that is not
a non-string sequence is rejected with a `TypeError` (ContentError
class); when all earlier rows validate, its message is exactly
"must be a sequence of sequences of numbers". -/
theorem claim_C6_amended_row_type_error (name : String) :
    (∀ (rows : List PyVal) (x : PyVal), x ∈ rows → x.isRow = false →
      ∃ msg, validate_matrix (.list rows) name = .error (.typeError msg)) ∧
    (∀ (pre : List PyVal) (x : PyVal) (post : List PyVal) (out : List (List PyNum)),
      validate_rows pre name = .ok out → x.isRow = false →
      validate_matrix (.list (pre ++ x :: post)) name
        = .error (.typeError (name ++ " must be a sequence of sequences of numbers"))) := by
  have hrow : ∀ x : PyVal, x.isRow = false →
      validate_row x name
        = .error (.typeError (name ++ " must be a sequence of sequences of numbers")) := by
    intro x hx
    cases x with
    | list xs => simp [PyVal.isRow] at hx
    | int n => rfl
    | float f => rfl
    | bool b => rfl
    | str s => rfl
    | none => rfl
  constructor
  · intro rows x hmem hx
    cases hvr : validate_rows rows name with
    | error e =>
      obtain ⟨t, ht⟩ := validate_rows_error rows name e hvr
      exact ⟨name ++ t, by rw [validate_matrix, hvr, ht]⟩
    | ok out =>
      exfalso
      simp only [validate_rows] at hvr
      obtain ⟨y, hy⟩ := except_mapM_ok _ rows out hvr x hmem
      rw [hrow x hx] at hy
      cases hy
  · intro pre x post out hpre hx
    have hrows : validate_rows (pre ++ x :: post) name
        = .error (.typeError (name ++ " must be a sequence of sequences of numbers")) := by
      simp only [validate_rows] at hpre ⊢
      rw [List.mapM_append, List.mapM_cons, hpre, hrow x hx]
      simp [Bind.bind, Except.bind]
    rw [validate_matrix, hrows]

/-- Witness for C6 (amended): after one valid row, a bare number in row
position is rejected with the exact `TypeError` message. -/
theorem claim_C6_witness :
    (∃ msg, validate_matrix (.list [.list [.int 1], .int 5]) "left"
        = .error (.typeError msg)) ∧
    validate_matrix (.list [.list [.int 1], .int 5]) "left"
      = .error (.typeError "left must be a sequence of sequences of numbers") :=
  ⟨(claim_C6_amended_row_type_error "left").1 [.list [.int 1], .int 5] (.int 5)
      (by simp) rfl,
    (claim_C6_amended_row_type_error "left").2 [.list [.int 1]] (.int 5) [] [[PyNum.int 1]]
      rfl rfl⟩

/-- C9: `multiply_matrices` validates its left argument first: whenever
left validation fails, the multiplication raises exactly that error, and
its message is labelled "left" (whatever the right argument is). -/
theorem claim_C9_left_validated_first (L R : PyVal) (e : PyErr)
    (hL : validate_matrix L "left" = .error e) :
    multiply_matrices L R = .error e ∧ ∃ t, e.message = "left" ++ t :=
  ⟨by rw [multiply_matrices, hL], validate_matrix_error_label L "left" e hL⟩

/-- Witness for C9: both arguments invalid (a bare number on the left, an
empty list on the right); the raised error is the left validation's
`TypeError`, labelled "left". -/
theorem claim_C9_witness :
    validate_matrix (.int 5) "left"
        = .error (.typeError "left must be a sequence of sequences of numbers") ∧
    multiply_matrices (.int 5) (.list [])
        = .error (.typeError "left must be a sequence of sequences of numbers") ∧
    ∃ t, PyErr.message (.typeError "left must be a sequence of sequences of numbers")
        = "left" ++ t :=
  ⟨rfl,
    (claim_C9_left_validated_first (.int 5) (.list []) _ rfl).1,
    (claim_C9_left_validated_first (.int 5) (.list []) _ rfl).2⟩

/-- C7: invoked with zero positional arguments, the CLI multiplies the
fixed demo matrices, prints their product [[58,64],[139,154]] (one line
per row), and returns exit code 0, whatever the JSON decoder is. -/
theorem claim_C7_cli_demo (decode : String → Except String PyVal) :
    py_main decode ["main.py"] = .exit ["58 64", "139 154"] 0 ∧
    multiply_matrices demo_left demo_right
      = .ok [[PyNum.int 58, PyNum.int 64], [PyNum.int 139, PyNum.int 154]] :=
  ⟨rfl, rfl⟩

/-- C2 counterexample: on left [[0]] and right [[nan]] the zero skip
returns [[0]] while the unconditional naive triple loop returns [[nan]],
so the outputs differ in value; the claimed NaN-including equivalence
fails.  The same happens on right [[inf]], where the naive loop computes
`0 * inf = nan`. -/
theorem claim_C2_counterexample :
    (multiply_matrices (.list [.list [.int 0]]) (.list [.list [.float .nan]])
        = .ok [[PyNum.int 0]] ∧
      naive_multiply_matrices (.list [.list [.int 0]]) (.list [.list [.float .nan]])
        = .ok [[PyNum.float .nan]] ∧
      exceptValEq
          (multiply_matrices (.list [.list [.int 0]]) (.list [.list [.float .nan]]))
          (naive_multiply_matrices (.list [.list [.int 0]]) (.list [.list [.float .nan]]))
        = false) ∧
    (multiply_matrices (.list [.list [.int 0]]) (.list [.list [.float (.inf false)]])
        = .ok [[PyNum.int 0]] ∧
      naive_multiply_matrices (.list [.list [.int 0]]) (.list [.list [.float (.inf false)]])
        = .ok [[PyNum.float .nan]] ∧
      exceptValEq
          (multiply_matrices (.list [.list [.int 0]]) (.list [.list [.float (.inf false)]]))
          (naive_multiply_matrices (.list [.list [.int 0]])
            (.list [.list [.float (.inf false)]]))
        = false) :=
  ⟨⟨rfl, rfl, rfl⟩, ⟨rfl, rfl, rfl⟩⟩

/-- C2 (amended): whenever the right matrix validates with only finite
entries (no NaN and no infinity), the zero-skipping multiplier and the
unconditional naive triple loop produce value-equal outcomes (identical
exceptions, or matrices equal cell by cell as numeric data,
`0 == 0.0 == -0.0`, NaN identified with NaN); with a NaN or an infinity
in the right matrix the outputs can differ, as the counterexample
shows. -/
theorem claim_C2_amended_no_nan_equivalence (L R : PyVal)
    (hfin : ∀ b, validate_matrix R "right" = .ok b → finiteMat b = true) :
    exceptValEq (multiply_matrices L R) (naive_multiply_matrices L R) = true :=
  multiply_valEq_naive L R hfin

/-- Witness for C2 (amended): the spec's own example
`multiply([[0,2]], [[1],[3]]) == [[6]]`, where skip and naive agree. -/
theorem claim_C2_witness :
    multiply_matrices (.list [.list [.int 0, .int 2]]) (.list [.list [.int 1], .list [.int 3]])
        = .ok [[PyNum.int 6]] ∧
    exceptValEq
        (multiply_matrices (.list [.list [.int 0, .int 2]])
          (.list [.list [.int 1], .list [.int 3]]))
        (naive_multiply_matrices (.list [.list [.int 0, .int 2]])
          (.list [.list [.int 1], .list [.int 3]]))
      = true :=
  ⟨rfl,
    claim_C2_amended_no_nan_equivalence _ _ (fun b hb => by cases hb; rfl)⟩

/-- C8: for every pair of valid, compatible matrices, whenever the left
entry at (i, k0) compares equal to zero, the implementation performs no
multiplication or accumulation for that (i, k0) pair: row i of the
result is completely independent of row k0 of the right matrix, so a NaN
at right[k0][j] contributes nothing to result[i][j]; and this is an
observable difference from the unconditional naive loop, which turns
[[0]]×[[nan]] into [[nan]] where the skip yields [[0]]. -/
theorem claim_C8_zero_skip_no_contribution :
    (∀ (L R R' : PyVal) (a b : List (List PyNum)) (k0 : ℕ) (r' : List PyNum)
        (C C' : List (List PyNum)) (i : ℕ),
      validate_matrix L "left" = .ok a →
      validate_matrix R "right" = .ok b →
      validate_matrix R' "right" = .ok (b.set k0 r') →
      ((b.set k0 r').headD []).length = (b.headD []).length →
      multiply_matrices L R = .ok C →
      multiply_matrices L R' = .ok C' →
      ((a.getD i []).getD k0 (PyNum.int 0)).eqZero = true →
      C'.getD i [] = C.getD i []) ∧
    multiply_matrices (.list [.list [.int 0]]) (.list [.list [.float .nan]])
        = .ok [[PyNum.int 0]] ∧
    naive_multiply_matrices (.list [.list [.int 0]]) (.list [.list [.float .nan]])
        = .ok [[PyNum.float .nan]] := by
  refine ⟨?_, rfl, rfl⟩
  intro L R R' a b k0 r' C C' i hL hR hR' hhead hC hC' hzero
  rw [multiply_matrices, hL, hR] at hC
  rw [multiply_matrices, hL, hR'] at hC'
  dsimp only at hC hC'
  rw [List.length_set, hhead] at hC'
  by_cases hcond : (a.headD []).length ≠ b.length
  · rw [if_pos hcond] at hC
    cases hC
  · rw [if_neg hcond] at hC hC'
    cases hC
    cases hC'
    by_cases hi : i < a.length
    · have hiC : i < (a.map (fun ai => mult_row ai b (b.headD []).length)).length := by
        rw [List.length_map]
        exact hi
      have hiC' : i <
          (a.map (fun ai => mult_row ai (b.set k0 r') (b.headD []).length)).length := by
        rw [List.length_map]
        exact hi
      rw [List.getD_eq_getElem _ _ hiC, List.getD_eq_getElem _ _ hiC',
        List.getElem_map, List.getElem_map]
      rw [List.getD_eq_getElem _ _ hi] at hzero
      rw [mult_row, mult_row]
      exact fold_set_skip k0 _ b r' _ hzero
    · have hle : a.length ≤ i := Nat.le_of_not_lt hi
      rw [List.getD_eq_default _ _ (by rw [List.length_map]; exact hle),
        List.getD_eq_default _ _ (by rw [List.length_map]; exact hle)]

/-- Witness for C8: left [[0],[1]] has a zero only at (0,0) — the column
is not all zero — yet row 0 of the product ignores the right matrix's
row 0: replacing [nan] by [7] changes row 1 only. -/
theorem claim_C8_witness :
    multiply_matrices (.list [.list [.int 0], .list [.int 1]])
        (.list [.list [.float .nan]])
      = .ok [[PyNum.int 0], [PyNum.float .nan]] ∧
    multiply_matrices (.list [.list [.int 0], .list [.int 1]])
        (.list [.list [.int 7]])
      = .ok [[PyNum.int 0], [PyNum.int 7]] ∧
    ([[PyNum.int 0], [PyNum.int 7]] : List (List PyNum)).getD 0 []
      = ([[PyNum.int 0], [PyNum.float .nan]] : List (List PyNum)).getD 0 [] :=
  ⟨rfl, rfl,
    (claim_C8_zero_skip_no_contribution).1
      (.list [.list [.int 0], .list [.int 1]])
      (.list [.list [.float .nan]])
      (.list [.list [.int 7]])
      [[PyNum.int 0], [PyNum.int 1]]
      [[PyNum.float .nan]]
      0 [PyNum.int 7]
      [[PyNum.int 0], [PyNum.float .nan]]
      [[PyNum.int 0], [PyNum.int 7]]
      0
      rfl rfl rfl rfl rfl rfl (by decide)⟩
